import Mathlib

/-!
Verification of the `GPTService` content client (`src/services/gptService.ts`).

The service post-processes loosely-typed JSON into typed quiz questions and
exploratory content.  We shallowly embed the JSON/JavaScript value space as
`JsVal` (arrays and objects are cons-encoded so that equality is decidable and
everything kernel-computes), and translate each method of the class into a
total Lean function.  JavaScript exceptions (TypeError on property access of
null/undefined, calling a non-function) are made explicit with `Option` unless
a try/catch in the source discharges them.  JS numbers are modelled as `ℚ`
(the code only compares, floors and ceils them; no NaN/Infinity arises in any
claim).  String length counts code points and `jsTrim` strips ASCII-style
whitespace; both agree with JavaScript on the ASCII inputs the claims use.
-/

/-- A JavaScript/JSON runtime value.  Arrays are `arrNil`/`arrCons` chains and
objects are `objNil`/`objCons` chains (field order = insertion order, first
binding wins on lookup, matching single-binding JSON objects). -/
inductive JsVal where
  | null
  | undefV
  | boolV (b : Bool)
  | num (q : ℚ)
  | str (s : String)
  | arrNil
  | arrCons (head tail : JsVal)
  | objNil
  | objCons (key : String) (value tail : JsVal)
deriving DecidableEq, Repr

namespace JsVal

/-- Nullishness, `v == null` in the loose sense: `null` or `undefined`. -/
def isNullish : JsVal → Bool
  | .null | .undefV => true
  | _ => false

/-- Array test, `Array.isArray(v)`. -/
def isArray : JsVal → Bool
  | .arrNil | .arrCons _ _ => true
  | _ => false

/-- Whether `v` is a plain object. -/
def isObject : JsVal → Bool
  | .objNil | .objCons _ _ _ => true
  | _ => false

/-- The element list of an array value. -/
def elems : JsVal → List JsVal
  | .arrCons v tl => v :: elems tl
  | _ => []

/-- Build an array value from a list. -/
def ofList : List JsVal → JsVal
  | [] => .arrNil
  | v :: vs => .arrCons v (ofList vs)

/-- Look a field up in an object value (first binding wins). -/
def lookupField : JsVal → String → Option JsVal
  | .objCons k v tl, key => if k = key then some v else lookupField tl key
  | _, _ => none

/-- Build an object value from a field list. -/
def ofFields : List (String × JsVal) → JsVal
  | [] => .objNil
  | (k, v) :: fs => .objCons k v (ofFields fs)

/-- JavaScript truthiness: `null`, `undefined`, `false`, `0`, `""` are falsy,
everything else (including empty arrays and objects) is truthy. -/
def truthy : JsVal → Bool
  | .null | .undefV => false
  | .boolV b => b
  | .num q => q != 0
  | .str s => s != ""
  | _ => true

/-- Property read `v.k` on a value already known to be non-nullish: the field for objects,
`undefined` for primitives and arrays (none of which carry these field names). -/
def getField (v : JsVal) (k : String) : JsVal :=
  (v.lookupField k).getD .undefV

/-- Optional-chaining property read `v?.k`, `undefined` when `v` is nullish. -/
def optField (v : JsVal) (k : String) : JsVal :=
  if v.isNullish then .undefV else v.getField k

/-- Property read `v.k` with the JS exception made explicit: `none` is the TypeError raised
when `v` is `null` or `undefined`. -/
def getFieldT (v : JsVal) (k : String) : Option JsVal :=
  if v.isNullish then none else some (v.getField k)

/-- Indexing `v[i]` on a non-nullish value: array element, single-character string for
string indexing, the `"i"` field for objects, `undefined` otherwise. -/
def index (v : JsVal) (i : Nat) : JsVal :=
  match v with
  | .arrNil | .arrCons _ _ => (elems v).getD i .undefV
  | .str s =>
    match s.data.get? i with
    | some c => .str ⟨[c]⟩
    | none => .undefV
  | .objNil | .objCons _ _ _ => v.getField (toString i)
  | _ => .undefV

/-- Short-circuit `a || b`. -/
def jsOr (a b : JsVal) : JsVal :=
  if a.truthy then a else b

end JsVal

/-- JS `String.prototype.trim`, computed on the character list so that it
kernel-evaluates.  (JS trims a slightly larger Unicode whitespace set; the two
agree on ASCII.) -/
def jsTrim (s : String) : String :=
  ⟨((s.data.dropWhile Char.isWhitespace).reverse.dropWhile Char.isWhitespace).reverse⟩

/-- Outcome of evaluating `v?.trim()`, kept for its value. -/
inductive TrimRes where
  | threw
  | undefR
  | strv (s : String)
deriving DecidableEq, Repr

/-- Evaluation of `v?.trim()`: `undefR` when `v` is nullish (the whole chain is undefined),
the trimmed string when `v` is a string, and a TypeError (`threw`) otherwise
because `.trim` is undefined and gets called. -/
def optTrim : JsVal → TrimRes
  | .null | .undefV => .undefR
  | .str s => .strv (jsTrim s)
  | _ => .threw

/-- Evaluation of `v?.k?.trim()`. -/
def optFieldTrim (v : JsVal) (k : String) : TrimRes :=
  if v.isNullish then .undefR else optTrim (v.getField k)

/-- Outcome of `options.some(opt => !opt?.trim())`. -/
inductive ScanRes where
  | threw
  | yes
  | no
deriving DecidableEq, Repr

/-- Evaluation of `options.some(opt => !opt?.trim())`, left to right, with the first thrown
TypeError propagating. -/
def someOptionBlank : List JsVal → ScanRes
  | [] => .no
  | o :: os =>
    match optTrim o with
    | .threw => .threw
    | .undefR => .yes
    | .strv s => if s = "" then .yes else someOptionBlank os

/-- Evaluation of `new Set(xs).size`: number of distinct elements.  JS compares set members
with SameValueZero; structural equality agrees with it on the all-string lists
this is reachable for. -/
def distinctCount (l : List JsVal) : Nat := l.dedup.length

/-- Outcome of reading `v.length`. -/
inductive LenRes where
  | threw
  | undefL
  | val (n : Nat)
deriving DecidableEq, Repr

/-- Evaluation of `v.length`: TypeError on nullish `v`, the length for strings and arrays,
`undefined` for other values. -/
def jsLen : JsVal → LenRes
  | .null | .undefV => .threw
  | .str s => .val s.length
  | .arrNil => .val 0
  | .arrCons h tl => .val (JsVal.elems (.arrCons h tl)).length
  | _ => .undefL

/-- Evaluation of `v.k.length < n` as JS performs it: `none` when an access throws,
`some false` when `.length` is undefined (`undefined < n` is false),
otherwise the numeric comparison. -/
def fieldLenLt (v : JsVal) (k : String) (n : Nat) : Option Bool :=
  match JsVal.getFieldT v k with
  | none => none
  | some f =>
    match jsLen f with
    | .threw => none
    | .undefL => some false
    | .val m => some (decide (m < n))

/-- A question as the service builds it before validation: the four fields the
validator inspects are raw JS values, the fields the service itself assigns are
typed. -/
structure Question where
  text : JsVal := .undefV
  options : JsVal := .undefV
  correctAnswer : JsVal := .undefV
  explanation : JsVal := .undefV
  difficulty : ℚ := 1
  topic : String := ""
  subtopic : JsVal := .undefV
  examType : Option String := none
  questionType : String := "conceptual"
  ageGroup : String := ""
deriving DecidableEq, Repr

/-- The body of `validateQuestionFormat` (source lines 294–312), before the
surrounding try/catch: `none` models an exception escaping to the catch.
Checks are performed in source order. -/
def validateBody (q : Question) : Option Bool :=
  match q.text with
  | .null | .undefV => some false
  | .str s =>
    if jsTrim s = "" then some false
    else
      if q.options.isArray then
        if q.options.elems.length = 4 then
          match someOptionBlank q.options.elems with
          | .threw => none
          | .yes => some false
          | .no =>
            match q.correctAnswer with
            | .num x =>
              if x < 0 ∨ 3 < x then some false
              else
                match optFieldTrim q.explanation "correct" with
                | .threw => none
                | .undefR => some false
                | .strv c =>
                  if c = "" then some false
                  else
                    match optFieldTrim q.explanation "key_point" with
                    | .threw => none
                    | .undefR => some false
                    | .strv kp =>
                      if kp = "" then some false
                      else
                        if s.length < 10 then some false
                        else
                          if q.options.elems.length = distinctCount q.options.elems then
                            match fieldLenLt q.explanation "correct" 5 with
                            | none => none
                            | some true => some false
                            | some false =>
                              match fieldLenLt q.explanation "key_point" 5 with
                              | none => none
                              | some true => some false
                              | some false => some true
                          else some false
            | _ => some false
        else some false
      else some false
  | _ => none

/-- Function `validateQuestionFormat` (source lines 292–317): the try/catch turns any
exception in the body into `false`. -/
def validateQuestionFormat (q : Question) : Bool :=
  (validateBody q).getD false

/-- Spec-side: "text is non-empty after trimming and ≥10 characters". -/
def specTextOk : JsVal → Bool
  | .str s => jsTrim s != "" && decide (10 ≤ s.length)
  | _ => false

/-- Spec-side: an option entry is a string that is non-empty after trimming. -/
def specOptionFilled : JsVal → Bool
  | .str s => jsTrim s != ""
  | _ => false

/-- Spec-side: "all mutually distinct". -/
def specDistinct : List JsVal → Bool
  | [] => true
  | o :: os => !(decide (o ∈ os)) && specDistinct os

/-- Spec-side: "options has exactly 4 entries, each non-empty after trimming,
all mutually distinct". -/
def specOptionsOk (v : JsVal) : Bool :=
  v.isArray && decide (v.elems.length = 4) && v.elems.all specOptionFilled
    && specDistinct v.elems

/-- Spec-side, as the code actually behaves: "correctAnswer is a number in
[0,3]". -/
def specAnswerOk : JsVal → Bool
  | .num x => decide (0 ≤ x) && decide (x ≤ 3)
  | _ => false

/-- Spec-side, claim C2 verbatim: "correctAnswer is an integer in [0,3]". -/
def specAnswerIntOk : JsVal → Bool
  | .num x => decide (0 ≤ x) && decide (x ≤ 3) && decide (x.den = 1)
  | _ => false

/-- Spec-side: one explanation part is a string, non-empty after trimming and
≥5 characters. -/
def specExplPartOk : JsVal → Bool
  | .str s => jsTrim s != "" && decide (5 ≤ s.length)
  | _ => false

/-- Spec-side: "explanation.correct and explanation.key_point are both
non-empty after trimming and ≥5 characters" (on an object explanation). -/
def specExplanationOk (v : JsVal) : Bool :=
  v.isObject && specExplPartOk (v.getField "correct")
    && specExplPartOk (v.getField "key_point")

/-- Claim C2's predicate with the behaviour the code implements for
`correctAnswer` (any number in [0,3]). -/
def specQuestionFormat (q : Question) : Bool :=
  specTextOk q.text && specOptionsOk q.options && specAnswerOk q.correctAnswer
    && specExplanationOk q.explanation

/-- Claim C2's predicate verbatim (`correctAnswer` an integer in [0,3]). -/
def specQuestionFormatInt (q : Question) : Bool :=
  specTextOk q.text && specOptionsOk q.options
    && specAnswerIntOk q.correctAnswer && specExplanationOk q.explanation

/-- A fully well-formed sample question, used by several witnesses. -/
def sampleGoodQuestion : Question where
  text := .str "What is two plus two?"
  options := .ofList [.str "three", .str "four", .str "five", .str "six"]
  correctAnswer := .num 1
  explanation := .objCons "correct" (.str "Two plus two is four.")
    (.objCons "key_point" (.str "Basic addition.") .objNil)
  difficulty := 1
  topic := "Arithmetic"
  subtopic := .str "Addition"
  questionType := "conceptual"
  ageGroup := "16-18"

example : validateQuestionFormat sampleGoodQuestion = true := by decide
example : specQuestionFormat sampleGoodQuestion = true := by decide
example : validateQuestionFormat { sampleGoodQuestion with correctAnswer := .num 4 } = false := by decide
example : validateQuestionFormat { sampleGoodQuestion with explanation := .str "" } = false := by decide
example : validateQuestionFormat { sampleGoodQuestion with text := .num 7 } = false := by decide

theorem someOptionBlank_eq_no {l : List JsVal} :
    someOptionBlank l = ScanRes.no ↔ l.all specOptionFilled = true := by
  induction l with
  | nil => simp [someOptionBlank]
  | cons o os ih =>
    cases o
    case str s =>
      by_cases hs : jsTrim s = "" <;>
        simp [someOptionBlank, optTrim, specOptionFilled, hs, ih]
    all_goals simp [someOptionBlank, optTrim, specOptionFilled, ih]

theorem specDistinct_iff_nodup {l : List JsVal} :
    specDistinct l = true ↔ l.Nodup := by
  induction l with
  | nil => simp [specDistinct]
  | cons o os ih => simp [specDistinct, ih, List.nodup_cons]

theorem length_eq_distinctCount_iff {l : List JsVal} :
    l.length = distinctCount l ↔ specDistinct l = true := by
  rw [specDistinct_iff_nodup, distinctCount]
  constructor
  · intro h
    have hs : l.dedup.Sublist l := List.dedup_sublist l
    have hd : l.dedup = l := hs.eq_of_length h.symm
    rw [← hd]
    exact l.nodup_dedup
  · intro h
    rw [List.dedup_eq_self.mpr h]

theorem JsVal.isObject_eq_false_of_isNullish {v : JsVal}
    (h : v.isNullish = true) : v.isObject = false := by
  cases v <;> simp_all [JsVal.isNullish, JsVal.isObject]

theorem JsVal.lookupField_eq_none (v : JsVal) (k : String)
    (h : v.isObject = false) : v.lookupField k = none := by
  cases v <;> simp_all [JsVal.isObject, JsVal.lookupField]

/-- The validator computes exactly the spec predicate with `correctAnswer`
required to be a number in [0,3]. -/
theorem validateQuestionFormat_eq_specFormat (q : Question) :
    validateQuestionFormat q = specQuestionFormat q := by
  obtain ⟨t, o, ca, ex, d, tp, st, et, qt, ag⟩ := q
  simp only [validateQuestionFormat, specQuestionFormat]
  cases t
  any_goals (simp [validateBody, specTextOk]; done)
  next s =>
  by_cases hts : jsTrim s = ""
  · simp [validateBody, hts, specTextOk]
  by_cases hArr : o.isArray
  case neg => simp [validateBody, hts, hArr, specOptionsOk]
  by_cases hlen : o.elems.length = 4
  case neg => simp [validateBody, hts, hArr, hlen, specOptionsOk]
  cases hscan : someOptionBlank o.elems
  any_goals
    (have hall : o.elems.all specOptionFilled = false := by
      by_contra hb
      rw [Bool.not_eq_false] at hb
      rw [someOptionBlank_eq_no.mpr hb] at hscan
      simp at hscan
     simp [validateBody, hts, hArr, hlen, hscan, specOptionsOk, hall]
     done)
  have hall : o.elems.all specOptionFilled = true := someOptionBlank_eq_no.mp hscan
  cases ca
  any_goals (simp [validateBody, hts, hArr, hlen, hscan, specAnswerOk]; done)
  next x =>
  by_cases hx : x < 0 ∨ 3 < x
  · have hans : specAnswerOk (.num x) = false := by
      rcases hx with hx | hx <;> simp [specAnswerOk, not_le.mpr hx]
    simp [validateBody, hts, hArr, hlen, hscan, hx, hans]
  have h0 : 0 ≤ x := not_lt.mp (fun h => hx (Or.inl h))
  have h3 : x ≤ 3 := not_lt.mp (fun h => hx (Or.inr h))
  by_cases hN : ex.isNullish
  · simp [validateBody, hts, hArr, hlen, hscan, hx, optFieldTrim,
      hN, specExplanationOk, JsVal.isObject_eq_false_of_isNullish hN]
  have hN2 : ex.isNullish = false := by simpa using hN
  by_cases hO : ex.isObject
  case neg =>
    have hO2 : ex.isObject = false := by simpa using hO
    simp [validateBody, hts, hArr, hlen, hscan, hx, optFieldTrim,
      hN2, hO2, specExplanationOk, JsVal.getField,
      JsVal.lookupField_eq_none ex _ hO2, optTrim]
  cases hc : JsVal.getField ex "correct"
  any_goals
    (simp [validateBody, hts, hArr, hlen, hscan, hx, optFieldTrim, hN2, hc,
      optTrim, specExplanationOk, specExplPartOk]
     done)
  next c0 =>
  by_cases hc0 : jsTrim c0 = ""
  · simp [validateBody, hts, hArr, hlen, hscan, hx, optFieldTrim, hN2, hc,
      optTrim, hc0, specExplanationOk, specExplPartOk]
  cases hk : JsVal.getField ex "key_point"
  any_goals
    (simp [validateBody, hts, hArr, hlen, hscan, hx, optFieldTrim, hN2, hc, hk,
      optTrim, hc0, specExplanationOk, specExplPartOk]
     done)
  next k0 =>
  by_cases hk0 : jsTrim k0 = ""
  · simp [validateBody, hts, hArr, hlen, hscan, hx, optFieldTrim, hN2, hc, hk,
      optTrim, hc0, hk0, specExplanationOk, specExplPartOk]
  by_cases hsl : s.length < 10
  · simp [validateBody, hts, hArr, hlen, hscan, hx, optFieldTrim, hN2, hc, hk,
      optTrim, hc0, hk0, hsl, specTextOk, not_le.mpr hsl]
  by_cases hdup : distinctCount o.elems = 4
  case neg =>
    have hdis : specDistinct o.elems = false := by
      by_contra hb
      rw [Bool.not_eq_false] at hb
      exact hdup ((length_eq_distinctCount_iff.mpr hb).symm.trans hlen)
    simp [validateBody, hts, hArr, hlen, hscan, hx, optFieldTrim, hN2, hc, hk,
      optTrim, hc0, hk0, hsl, hdup, Ne.symm hdup, specOptionsOk, hdis]
  have hdis : specDistinct o.elems = true :=
    length_eq_distinctCount_iff.mp (hlen.trans hdup.symm)
  by_cases h5 : c0.length < 5
  · simp [validateBody, hts, hArr, hlen, hscan, hx, optFieldTrim, hN2, hc, hk,
      optTrim, hc0, hk0, hsl, hdup, fieldLenLt, JsVal.getFieldT, jsLen, h5,
      specExplanationOk, specExplPartOk, not_le.mpr h5]
  by_cases h5k : k0.length < 5
  · simp [validateBody, hts, hArr, hlen, hscan, hx, optFieldTrim, hN2, hc, hk,
      optTrim, hc0, hk0, hsl, hdup, fieldLenLt, JsVal.getFieldT, jsLen, h5, h5k,
      specExplanationOk, specExplPartOk, not_le.mpr h5k]
  simp [validateBody, hts, hArr, hlen, hscan, hx, optFieldTrim, hN2, hc, hk,
    optTrim, hc0, hk0, hsl, hdup, fieldLenLt, JsVal.getFieldT, jsLen, h5, h5k,
    specTextOk, specOptionsOk, specAnswerOk, specExplanationOk, specExplPartOk,
    not_lt.mp hsl, not_lt.mp h5, not_lt.mp h5k, hall, hdis, hO, h0, h3]

/-- A rational that is a JS number but not an integer (2.5). -/
def twoPointFive : ℚ := ⟨5, 2, by decide, by norm_num⟩

/-- Identical to `sampleGoodQuestion` except that `correctAnswer` is the
non-integer number 2.5. -/
def fractionalAnswerQuestion : Question :=
  { sampleGoodQuestion with correctAnswer := .num twoPointFive }

/-- C2 counterexample: `validateQuestionFormat` accepts `correctAnswer = 2.5`
(the code only checks `typeof === 'number'` and `0 ≤ x ≤ 3`), while the claim
requires the accepted `correctAnswer` to be an *integer* in [0,3]; so the
claimed "if and only if" fails at this input. -/
theorem validateQuestionFormat_accepts_fractional_answer :
    validateQuestionFormat fractionalAnswerQuestion = true ∧
      specQuestionFormatInt fractionalAnswerQuestion = false := by
  constructor <;> decide

/-- C2 (amended): `validateQuestionFormat` returns true iff the text is
non-empty after trimming and ≥10 characters, options is an array of exactly 4
strings, each non-empty after trimming and pairwise distinct, `correctAnswer`
is a *number* in [0,3] (integrality is not checked), and `explanation.correct`
and `explanation.key_point` are strings non-empty after trimming and ≥5
characters. -/
theorem validateQuestionFormat_iff_specFormat (q : Question) :
    validateQuestionFormat q = specQuestionFormat q :=
  validateQuestionFormat_eq_specFormat q

/-- Malformed-input class: options is not an array of exactly 4 entries. -/
def wrongOptionCount (q : Question) : Bool :=
  !(q.options.isArray && decide (q.options.elems.length = 4))

/-- Malformed-input class: options is an array with duplicate entries. -/
def duplicateOptions (q : Question) : Bool :=
  q.options.isArray && !specDistinct q.options.elems

/-- Malformed-input class: `correctAnswer` is not a number, or a number
outside [0,3]. -/
def badCorrectAnswer (q : Question) : Bool :=
  match q.correctAnswer with
  | .num x => decide (x < 0) || decide (3 < x)
  | _ => true

/-- Malformed-input class: explanation is missing or not an object. -/
def badExplanation (q : Question) : Bool :=
  !q.explanation.isObject

/-- Malformed-input class: text is a string shorter than 10 characters. -/
def shortText (q : Question) : Bool :=
  match q.text with
  | .str s => decide (s.length < 10)
  | _ => false

/-- Malformed-input class: an explanation field is a string shorter than 5
characters. -/
def shortExplanation (q : Question) : Bool :=
  q.explanation.isObject &&
    ((match q.explanation.getField "correct" with
      | .str c => decide (c.length < 5)
      | _ => false) ||
     (match q.explanation.getField "key_point" with
      | .str c => decide (c.length < 5)
      | _ => false))

/-- C6: `validateQuestionFormat` is a total Bool-valued predicate; every
exception its body raises is caught and turned into `false`
(`validateBody q = none` is the caught-exception case), and every listed
malformed-input class yields `false`. -/
theorem validateQuestionFormat_false_on_malformed (q : Question)
    (h : validateBody q = none ∨ wrongOptionCount q = true ∨
      duplicateOptions q = true ∨ badCorrectAnswer q = true ∨
      badExplanation q = true ∨ shortText q = true ∨
      shortExplanation q = true) :
    validateQuestionFormat q = false := by
  rcases h with h | h | h | h | h | h | h
  · unfold validateQuestionFormat
    rw [h]
    rfl
  all_goals
    rw [validateQuestionFormat_eq_specFormat]
    by_contra hb
    rw [Bool.not_eq_false] at hb
    simp only [specQuestionFormat, Bool.and_eq_true] at hb
    obtain ⟨⟨⟨htext, hopts⟩, hans⟩, hexp⟩ := hb
  · simp only [specOptionsOk, Bool.and_eq_true] at hopts
    simp [wrongOptionCount, hopts.1.1.1, hopts.1.1.2] at h
  · simp only [specOptionsOk, Bool.and_eq_true] at hopts
    simp [duplicateOptions, hopts.2] at h
  · cases hca : q.correctAnswer <;> simp [specAnswerOk, hca] at hans
    simp [badCorrectAnswer, hca] at h
    rcases h with h | h
    · exact absurd hans.1 (not_le.mpr h)
    · exact absurd hans.2 (not_le.mpr h)
  · simp only [specExplanationOk, Bool.and_eq_true] at hexp
    simp [badExplanation, hexp.1.1] at h
  · cases htx : q.text <;> simp [specTextOk, htx] at htext
    simp [shortText, htx] at h
    omega
  · simp only [specExplanationOk, Bool.and_eq_true] at hexp
    obtain ⟨⟨hobj, hcor⟩, hkey⟩ := hexp
    simp only [shortExplanation, hobj, Bool.true_and, Bool.or_eq_true] at h
    rcases h with h | h
    · cases hgc : q.explanation.getField "correct" <;>
        simp [specExplPartOk, hgc] at hcor <;> simp [hgc] at h
      omega
    · cases hgk : q.explanation.getField "key_point" <;>
        simp [specExplPartOk, hgk] at hkey <;> simp [hgk] at h
      omega

/-- Witness for C6 at a concrete malformed input (missing `correctAnswer`). -/
theorem validateQuestionFormat_false_on_malformed_witness :
    validateQuestionFormat { sampleGoodQuestion with correctAnswer := .undefV }
      = false :=
  validateQuestionFormat_false_on_malformed _
    (Or.inr (Or.inr (Or.inr (Or.inl (by decide)))))

/-- A playground question as parsed from the raw response: every declared
field is a loose JS value.  `shuffleOptionsAndAnswer` spreads the whole record
(`{...question}`), so all fields are carried along. -/
structure RawQuestion where
  text : JsVal := .undefV
  options : JsVal := .undefV
  correctAnswer : JsVal := .undefV
  explanation : JsVal := .undefV
  difficulty : JsVal := .undefV
  topic : JsVal := .undefV
  subtopic : JsVal := .undefV
  examType : JsVal := .undefV
  questionType : JsVal := .undefV
  ageGroup : JsVal := .undefV
deriving DecidableEq, Repr

/-- JS `array.map((x, i) => ...)` with the running index starting at `s`. -/
def mapWithIndexFrom (f : Nat → α → β) : Nat → List α → List β
  | _, [] => []
  | i, a :: as => f i a :: mapWithIndexFrom f (i + 1) as

/-- JS `array.map((x, i) => ...)`. -/
def mapWithIndex (f : Nat → α → β) (l : List α) : List β :=
  mapWithIndexFrom f 0 l

/-- Destructuring swap `[a[i], a[j]] = [a[j], a[i]]` on a list (a no-op when an
index is out of range, which the shuffle loop never produces). -/
def swapIdx (l : List α) (i j : Nat) : List α :=
  match l.get? i, l.get? j with
  | some a, some b => (l.set i b).set j a
  | _, _ => l

/-- The Fisher–Yates loop `for (let i = n - 1; i > 0; i--)`: at index `i` it
swaps positions `i` and `rand i % (i + 1)`, the model of
`Math.floor(Math.random() * (i + 1))`, which lies in `0..i`. -/
def fyGo (rand : Nat → Nat) : List α → Nat → List α
  | l, 0 => l
  | l, i + 1 => fyGo rand (swapIdx l (i + 1) (rand (i + 1) % (i + 2))) i

/-- The in-place Fisher–Yates shuffle with an explicit decision stream. -/
def fisherYates (rand : Nat → Nat) (l : List α) : List α :=
  fyGo rand l (l.length - 1)

/-- JS `array.findIndex(p)`: index of the first element satisfying `p`, `-1`
when there is none. -/
def jsFindIndex (p : α → Bool) : List α → Int
  | [] => -1
  | a :: as =>
    if p a then 0
    else
      let r := jsFindIndex p as
      if r = -1 then -1 else r + 1

/-- The per-option flag `isCorrect: idx === question.correctAnswer` (strict JS
equality of the numeric index against the raw `correctAnswer`). -/
def isCorrectFlag (correctAnswer : JsVal) (idx : Nat) : Bool :=
  match correctAnswer with
  | .num m => decide ((idx : ℚ) = m)
  | _ => false

/-- Function `shuffleOptionsAndAnswer` (source lines 319–337): tag each option
with its `isCorrect` flag, Fisher–Yates-shuffle the tagged list, and recompute
`correctAnswer` via `findIndex`.  `.error ()` is the TypeError thrown by
`question.options.map` when `options` is not an array. -/
def shuffleOptionsAndAnswer (rand : Nat → Nat) (question : RawQuestion) :
    Except Unit RawQuestion :=
  if question.options.isArray then
    let optionsWithIndex := mapWithIndex
      (fun idx opt => (opt, isCorrectFlag question.correctAnswer idx))
      question.options.elems
    let shuffled := fisherYates rand optionsWithIndex
    let newCorrectAnswer := jsFindIndex (fun p => p.2) shuffled
    .ok { question with
      options := .ofList (shuffled.map Prod.fst),
      correctAnswer := .num (newCorrectAnswer : ℚ) }
  else .error ()

/-- Iterated shuffling, one decision stream per round. -/
def shuffleIter : List (Nat → Nat) → RawQuestion → Except Unit RawQuestion
  | [], q => .ok q
  | r :: rs, q =>
    match shuffleOptionsAndAnswer r q with
    | .ok q1 => shuffleIter rs q1
    | .error e => .error e

theorem JsVal.isArray_ofList (l : List JsVal) :
    (JsVal.ofList l).isArray = true := by
  cases l <;> rfl

theorem JsVal.elems_ofList (l : List JsVal) : (JsVal.ofList l).elems = l := by
  induction l with
  | nil => rfl
  | cons v vs ih => simp [JsVal.ofList, JsVal.elems, ih]

theorem cons_set_perm {α : Type} :
    ∀ (xs : List α) (m : Nat) (b x : α), xs.get? m = some b →
      (b :: xs.set m x).Perm (x :: xs) := by
  intro xs
  induction xs with
  | nil => intro m b x h; simp at h
  | cons y t ih =>
    intro m b x h
    cases m with
    | zero =>
      simp at h
      subst h
      exact List.Perm.swap x y t
    | succ m =>
      simp only [List.get?] at h
      have h1 := ih m b x h
      have h2 : List.Perm (b :: y :: t.set m x) (y :: b :: t.set m x) :=
        List.Perm.swap y b _
      have h3 : List.Perm (y :: b :: t.set m x) (y :: x :: t) := h1.cons y
      have h4 : List.Perm (y :: x :: t) (x :: y :: t) := List.Perm.swap x y t
      exact (h2.trans h3).trans h4

theorem set_set_perm {α : Type} :
    ∀ (l : List α) (i j : Nat) (a b : α), l.get? i = some a →
      l.get? j = some b → ((l.set i b).set j a).Perm l := by
  intro l
  induction l with
  | nil => intro i j a b hi hj; simp at hi
  | cons x t ih =>
    intro i j a b hi hj
    cases i with
    | zero =>
      simp at hi
      cases j with
      | zero =>
        simp at hj
        subst hi; subst hj
        exact List.Perm.refl _
      | succ m =>
        simp only [List.get?] at hj
        subst hi
        exact cons_set_perm t m b x hj
    | succ n =>
      simp only [List.get?] at hi
      cases j with
      | zero =>
        simp at hj
        subst hj
        exact cons_set_perm t n a x hi
      | succ m =>
        simp only [List.get?] at hj
        exact (ih n m a b hi hj).cons x

theorem swapIdx_perm {α : Type} (l : List α) (i j : Nat) :
    (swapIdx l i j).Perm l := by
  unfold swapIdx
  cases hi : l.get? i with
  | none => exact List.Perm.refl l
  | some a =>
    cases hj : l.get? j with
    | none => exact List.Perm.refl l
    | some b => exact set_set_perm l i j a b hi hj

theorem fyGo_perm {α : Type} (rand : Nat → Nat) :
    ∀ (i : Nat) (l : List α), (fyGo rand l i).Perm l := by
  intro i
  induction i with
  | zero => intro l; exact List.Perm.refl l
  | succ n ih =>
    intro l
    exact (ih _).trans (swapIdx_perm l (n + 1) _)

theorem fisherYates_perm {α : Type} (rand : Nat → Nat) (l : List α) :
    (fisherYates rand l).Perm l :=
  fyGo_perm rand _ l

theorem mapWithIndexFrom_fst {α : Type} (flag : Nat → Bool) :
    ∀ (s : Nat) (l : List α),
      (mapWithIndexFrom (fun i o => (o, flag i)) s l).map Prod.fst = l := by
  intro s l
  induction l generalizing s with
  | nil => rfl
  | cons o os ih => simp [mapWithIndexFrom, ih]

theorem mapWithIndexFrom_filter_of_false {α : Type} (flag : Nat → Bool) :
    ∀ (s : Nat) (l : List α),
      (∀ i, s ≤ i → i < s + l.length → flag i = false) →
      (mapWithIndexFrom (fun i o => (o, flag i)) s l).filter (fun p => p.2)
        = [] := by
  intro s l
  induction l generalizing s with
  | nil => intro _; rfl
  | cons o os ih =>
    intro h
    simp only [List.length_cons] at h
    have h0 : flag s = false := h s le_rfl (by omega)
    simp only [mapWithIndexFrom, List.filter, h0]
    exact ih (s + 1) (fun i h1 h2 => h i (by omega) (by omega))

theorem mapWithIndexFrom_filter_eq {α : Type} (k : Nat) :
    ∀ (s : Nat) (l : List α) (x : α), s ≤ k → l.get? (k - s) = some x →
      (mapWithIndexFrom (fun i o => (o, decide (i = k))) s l).filter
        (fun p => p.2) = [(x, true)] := by
  intro s l
  induction l generalizing s with
  | nil => intro x hs h; simp at h
  | cons o os ih =>
    intro x hs h
    by_cases hsk : s = k
    · subst hsk
      rw [Nat.sub_self] at h
      simp at h
      subst h
      have htail : (mapWithIndexFrom (fun i o => (o, decide (i = s))) (s + 1) os).filter
          (fun p => p.2) = [] := by
        apply mapWithIndexFrom_filter_of_false
        intro i h1 _
        simp only [decide_eq_false_iff_not]
        omega
      simp [mapWithIndexFrom, List.filter, htail]
    · have hs1 : s + 1 ≤ k := by omega
      have h2 : os.get? (k - (s + 1)) = some x := by
        have hks : k - s = (k - (s + 1)) + 1 := by omega
        rw [hks] at h
        simpa using h
      have hd : decide (s = k) = false := by simp [hsk]
      simp only [mapWithIndexFrom, List.filter, hd]
      exact ih (s + 1) x hs1 h2

theorem jsFindIndex_of_all_false {α : Type} (p : α → Bool) :
    ∀ l : List α, (∀ a ∈ l, p a = false) → jsFindIndex p l = -1 := by
  intro l
  induction l with
  | nil => intro _; rfl
  | cons a as ih =>
    intro h
    have ha : p a = false := h a (by simp)
    have has : jsFindIndex p as = -1 := ih (fun b hb => h b (by simp [hb]))
    simp [jsFindIndex, ha, has]

theorem jsFindIndex_spec {α : Type} (p : α → Bool) :
    ∀ l : List α, (∃ a ∈ l, p a = true) →
      ∃ (j : Nat) (a : α), jsFindIndex p l = (j : Int) ∧ j < l.length ∧
        l.get? j = some a ∧ p a = true := by
  intro l
  induction l with
  | nil => rintro ⟨a, ha, _⟩; simp at ha
  | cons b bs ih =>
    rintro ⟨a, ha, hp⟩
    by_cases hb : p b = true
    · exact ⟨0, b, by simp [jsFindIndex, hb], by simp, by simp, hb⟩
    · have hb2 : p b = false := by simpa using hb
      have hmem : ∃ a ∈ bs, p a = true := by
        rcases List.mem_cons.mp ha with rfl | hmem
        · rw [hp] at hb2; cases hb2
        · exact ⟨a, hmem, hp⟩
      obtain ⟨j, a2, hfi, hlt, hget, hpa⟩ := ih hmem
      refine ⟨j + 1, a2, ?_, by simpa using Nat.succ_lt_succ hlt,
        by simpa using hget, hpa⟩
      have hne : ((j : Int)) ≠ -1 := by omega
      simp [jsFindIndex, hb2, hfi, hne]

theorem isCorrectFlag_num (k i : Nat) :
    isCorrectFlag (.num ((k : Nat) : ℚ)) i = decide (i = k) := by
  simp [isCorrectFlag, Nat.cast_inj]

theorem shuffleOptionsAndAnswer_step (rand : Nat → Nat) (q : RawQuestion)
    (opts : List JsVal) (k : Nat) (x : JsVal)
    (hopts : q.options = JsVal.ofList opts)
    (hca : q.correctAnswer = .num ((k : Nat) : ℚ))
    (hk : opts.get? k = some x) :
    ∃ (q1 : RawQuestion) (opts1 : List JsVal) (j : Nat),
      shuffleOptionsAndAnswer rand q = .ok q1 ∧
      q1.options = JsVal.ofList opts1 ∧ List.Perm opts1 opts ∧
      q1.correctAnswer = .num ((j : Nat) : ℚ) ∧ opts1.get? j = some x := by
  have howi : mapWithIndex
      (fun idx opt => (opt, isCorrectFlag q.correctAnswer idx)) opts
      = mapWithIndexFrom (fun i o => (o, decide (i = k))) 0 opts := by
    unfold mapWithIndex
    congr 1
    funext i o
    rw [hca, isCorrectFlag_num]
  set shuffled :=
    fisherYates rand (mapWithIndexFrom (fun i o => (o, decide (i = k))) 0 opts)
    with hshuf
  have hperm : List.Perm shuffled
      (mapWithIndexFrom (fun i o => (o, decide (i = k))) 0 opts) :=
    fisherYates_perm rand _
  have hfil0 : (mapWithIndexFrom (fun i o => (o, decide (i = k))) 0 opts).filter
      (fun p => p.2) = [(x, true)] :=
    mapWithIndexFrom_filter_eq k 0 opts x (Nat.zero_le k) (by simpa using hk)
  have hfil : shuffled.filter (fun p => p.2) = [(x, true)] := by
    have h1 := hperm.filter (fun p => p.2)
    rw [hfil0] at h1
    exact List.perm_singleton.mp h1
  have hmem : ∃ a ∈ shuffled, (fun p : JsVal × Bool => p.2) a = true := by
    have hx : (x, true) ∈ shuffled.filter (fun p => p.2) := by
      rw [hfil]; simp
    have h2 := List.mem_filter.mp hx
    exact ⟨(x, true), h2.1, h2.2⟩
  obtain ⟨j, a2, hfi, hlt, hget, hpa⟩ := jsFindIndex_spec _ shuffled hmem
  have ha2 : a2 = (x, true) := by
    have hm : a2 ∈ shuffled.filter (fun p => p.2) :=
      List.mem_filter.mpr ⟨List.get?_mem hget, hpa⟩
    rw [hfil] at hm
    simpa using hm
  subst ha2
  refine ⟨{ q with
              options := .ofList (shuffled.map Prod.fst),
              correctAnswer := .num ((j : Nat) : ℚ) },
    shuffled.map Prod.fst, j, ?_, rfl, ?_, rfl, ?_⟩
  · unfold shuffleOptionsAndAnswer
    rw [hopts]
    dsimp only
    simp only [JsVal.isArray_ofList, JsVal.elems_ofList, eq_self_iff_true,
      if_true]
    rw [howi, ← hshuf, hfi]
    norm_num
  · have h1 := hperm.map Prod.fst
    rw [mapWithIndexFrom_fst (fun i => decide (i = k)) 0 opts] at h1
    exact h1
  · rw [List.get?_map, hget]
    rfl

theorem shuffleIter_preserves_aux (rands : List (Nat → Nat)) :
    ∀ (q : RawQuestion) (opts : List JsVal) (k : Nat) (x : JsVal),
      q.options = JsVal.ofList opts →
      q.correctAnswer = .num ((k : Nat) : ℚ) →
      opts.get? k = some x →
      ∃ (q1 : RawQuestion) (opts1 : List JsVal) (j : Nat),
        shuffleIter rands q = .ok q1 ∧ q1.options = JsVal.ofList opts1 ∧
        List.Perm opts1 opts ∧ q1.correctAnswer = .num ((j : Nat) : ℚ) ∧
        opts1.get? j = some x := by
  induction rands with
  | nil =>
    intro q opts k x hopts hca hk
    exact ⟨q, opts, k, rfl, hopts, List.Perm.refl _, hca, hk⟩
  | cons r rs ih =>
    intro q opts k x hopts hca hk
    obtain ⟨q1, opts1, j1, hs1, ho1, hp1, hc1, hk1⟩ :=
      shuffleOptionsAndAnswer_step r q opts k x hopts hca hk
    obtain ⟨q2, opts2, j2, hs2, ho2, hp2, hc2, hk2⟩ :=
      ih q1 opts1 j1 x ho1 hc1 hk1
    refine ⟨q2, opts2, j2, ?_, ho2, hp2.trans hp1, hc2, hk2⟩
    simp [shuffleIter, hs1, hs2]

/-- C1: for a question whose options array has 4 entries and whose
`correctAnswer` is a valid index `k` into it (pointing at option text `x`),
any number of repeated shuffles with arbitrary decision streams yields a
question whose options are a permutation of the original options and whose new
`correctAnswer` is an in-range index still pointing at the same option text. -/
theorem shuffleIter_preserves_options_and_answer (rands : List (Nat → Nat))
    (q : RawQuestion) (opts : List JsVal) (k : Nat) (x : JsVal)
    (hlen : opts.length = 4)
    (hopts : q.options = JsVal.ofList opts)
    (hca : q.correctAnswer = .num ((k : Nat) : ℚ))
    (hk : opts.get? k = some x) :
    ∃ (q1 : RawQuestion) (opts1 : List JsVal) (j : Nat),
      shuffleIter rands q = .ok q1 ∧ q1.options = JsVal.ofList opts1 ∧
      List.Perm opts1 opts ∧ q1.correctAnswer = .num ((j : Nat) : ℚ) ∧
      j < 4 ∧ opts1.get? j = some x := by
  obtain ⟨q1, opts1, j, h1, h2, h3, h4, h5⟩ :=
    shuffleIter_preserves_aux rands q opts k x hopts hca hk
  refine ⟨q1, opts1, j, h1, h2, h3, h4, ?_, h5⟩
  obtain ⟨hj, _⟩ := List.get?_eq_some.mp h5
  rw [h3.length_eq, hlen] at hj
  exact hj

/-- A concrete raw playground question used by the shuffle witnesses. -/
def sampleRawQuestion : RawQuestion where
  text := .str "What is two plus two?"
  options := .ofList [.str "three", .str "four", .str "five", .str "six"]
  correctAnswer := .num 1
  explanation := .objCons "correct" (.str "Two plus two is four.")
    (.objCons "key_point" (.str "Basic addition.") .objNil)

/-- Witness for C1 at a concrete question and two concrete decision streams. -/
theorem shuffleIter_preserves_options_and_answer_witness :
    ∃ (q1 : RawQuestion) (opts1 : List JsVal) (j : Nat),
      shuffleIter [fun _ => 0, fun _ => 1] sampleRawQuestion = .ok q1 ∧
      q1.options = JsVal.ofList opts1 ∧
      List.Perm opts1 [.str "three", .str "four", .str "five", .str "six"] ∧
      q1.correctAnswer = .num ((j : Nat) : ℚ) ∧ j < 4 ∧
      opts1.get? j = some (.str "four") :=
  shuffleIter_preserves_options_and_answer [fun _ => 0, fun _ => 1]
    sampleRawQuestion [.str "three", .str "four", .str "five", .str "six"] 1
    (.str "four") (by decide) rfl (by decide) (by decide)

/-- C10: shuffling changes only the `options` and `correctAnswer` fields; the
spread `{...question}` carries every other field through unchanged. -/
theorem shuffleOptionsAndAnswer_frame (rand : Nat → Nat) (q q1 : RawQuestion)
    (h : shuffleOptionsAndAnswer rand q = .ok q1) :
    q1.text = q.text ∧ q1.explanation = q.explanation ∧
    q1.difficulty = q.difficulty ∧ q1.topic = q.topic ∧
    q1.subtopic = q.subtopic ∧ q1.examType = q.examType ∧
    q1.questionType = q.questionType ∧ q1.ageGroup = q.ageGroup := by
  unfold shuffleOptionsAndAnswer at h
  by_cases hA : q.options.isArray
  · rw [if_pos hA] at h
    dsimp only at h
    injection h with h2
    subst h2
    exact ⟨rfl, rfl, rfl, rfl, rfl, rfl, rfl, rfl⟩
  · rw [if_neg hA] at h
    cases h

/-- The concrete result of shuffling `sampleRawQuestion` with the all-zero
decision stream. -/
def shuffledSampleRawQuestion : RawQuestion :=
  { sampleRawQuestion with
      options := .ofList [.str "four", .str "five", .str "six", .str "three"],
      correctAnswer := .num 0 }

/-- Witness for C10 at a concrete question and decision stream. -/
theorem shuffleOptionsAndAnswer_frame_witness :
    shuffledSampleRawQuestion.text = sampleRawQuestion.text ∧
    shuffledSampleRawQuestion.explanation = sampleRawQuestion.explanation ∧
    shuffledSampleRawQuestion.difficulty = sampleRawQuestion.difficulty ∧
    shuffledSampleRawQuestion.topic = sampleRawQuestion.topic ∧
    shuffledSampleRawQuestion.subtopic = sampleRawQuestion.subtopic ∧
    shuffledSampleRawQuestion.examType = sampleRawQuestion.examType ∧
    shuffledSampleRawQuestion.questionType = sampleRawQuestion.questionType ∧
    shuffledSampleRawQuestion.ageGroup = sampleRawQuestion.ageGroup :=
  shuffleOptionsAndAnswer_frame (fun _ => 0) sampleRawQuestion
    shuffledSampleRawQuestion rfl

/-- JS `Number.prototype.toString` for the model: integers print exactly (the
only values the service actually converts); other rationals print as
`num/den`, a stand-in no claim evaluates. -/
def jsNumToString (q : ℚ) : String :=
  if q.den = 1 then toString q.num else toString q.num ++ "/" ++ toString q.den

/-- Function `getPlaygroundQuestion` (source lines 118–162), modelled from the
parsed response content onward: shuffle the parsed question, build the
formatted question with its defaults, validate it.  `.error ()` collapses the
operation's internal failures into the generic "Failed to generate valid
question" rethrow of the catch block. -/
def getPlaygroundQuestion (rand : Nat → Nat) (topic : String) (level : ℚ)
    (age : ℚ) (parsedContent : RawQuestion) : Except Unit Question :=
  match shuffleOptionsAndAnswer rand parsedContent with
  | .error _ => .error ()
  | .ok shuffled =>
    let formattedQuestion : Question :=
      { text := JsVal.jsOr shuffled.text (.str "")
        options := shuffled.options
        correctAnswer := shuffled.correctAnswer
        explanation := .objCons "correct"
            (JsVal.jsOr (JsVal.optField shuffled.explanation "correct")
              (.str "Correct answer explanation"))
            (.objCons "key_point"
              (JsVal.jsOr (JsVal.optField shuffled.explanation "key_point")
                (.str "Key learning point")) .objNil)
        difficulty := level
        topic := topic
        subtopic := JsVal.jsOr parsedContent.subtopic (.str topic)
        examType := none
        questionType := "conceptual"
        ageGroup := jsNumToString age }
    if validateQuestionFormat formattedQuestion then .ok formattedQuestion
    else .error ()

theorem validate_false_of_neg_answer (q : Question)
    (h : q.correctAnswer = .num (-1)) : validateQuestionFormat q = false := by
  have hfalse : specAnswerOk (.num (-1)) = false := by decide
  rw [validateQuestionFormat_eq_specFormat]
  simp [specQuestionFormat, h, hfalse]

/-- C9: when `correctAnswer` strict-equals no index of the options array, every
`isCorrect` flag is false, so the shuffle returns `correctAnswer = -1`
(`findIndex` misses); consequently `getPlaygroundQuestion` fails validation and
returns the generic error instead of such a question. -/
theorem shuffle_unmatched_answer_yields_error (rand : Nat → Nat)
    (q : RawQuestion) (opts : List JsVal)
    (hopts : q.options = JsVal.ofList opts)
    (hno : ∀ i, i < opts.length → isCorrectFlag q.correctAnswer i = false) :
    (∃ q1, shuffleOptionsAndAnswer rand q = .ok q1 ∧
      q1.correctAnswer = .num (-1)) ∧
    ∀ (topic : String) (level age : ℚ),
      getPlaygroundQuestion rand topic level age q = .error () := by
  set owi := mapWithIndexFrom
    (fun i o => (o, isCorrectFlag q.correctAnswer i)) 0 opts with howi
  have hfil0 : owi.filter (fun p => p.2) = [] := by
    rw [howi]
    exact mapWithIndexFrom_filter_of_false _ 0 opts
      (fun i _ h2 => hno i (by omega))
  set shuffled := fisherYates rand owi with hshuf
  have hperm : List.Perm shuffled owi := fisherYates_perm rand owi
  have hfil : shuffled.filter (fun p => p.2) = [] := by
    have h1 := hperm.filter (fun p => p.2)
    rw [hfil0] at h1
    exact h1.eq_nil
  have hallf : ∀ a ∈ shuffled, (fun p : JsVal × Bool => p.2) a = false := by
    intro a ha
    have h2 := List.filter_eq_nil.mp hfil a ha
    simpa using h2
  have hfi : jsFindIndex (fun p : JsVal × Bool => p.2) shuffled = -1 :=
    jsFindIndex_of_all_false _ shuffled hallf
  have hshr : shuffleOptionsAndAnswer rand q = .ok
      { q with options := .ofList (shuffled.map Prod.fst),
               correctAnswer := .num (-1) } := by
    unfold shuffleOptionsAndAnswer
    rw [hopts]
    dsimp only
    simp only [JsVal.isArray_ofList, JsVal.elems_ofList, eq_self_iff_true,
      if_true, mapWithIndex]
    rw [← howi, ← hshuf, hfi]
    norm_num
  constructor
  · exact ⟨_, hshr, rfl⟩
  · intro topic level age
    have hv : ∀ fq : Question, fq.correctAnswer = .num (-1) →
        (if validateQuestionFormat fq then (Except.ok fq : Except Unit Question)
         else .error ()) = .error () := by
      intro fq hfq
      rw [validate_false_of_neg_answer fq hfq]
      rfl
    unfold getPlaygroundQuestion
    rw [hshr]
    dsimp only
    exact hv _ rfl

/-- A concrete raw question whose `correctAnswer` (7) matches no option
index. -/
def unmatchedAnswerRawQuestion : RawQuestion :=
  { sampleRawQuestion with correctAnswer := .num 7 }

/-- Witness for C9 at a concrete question: the playground fetch fails. -/
theorem shuffle_unmatched_answer_yields_error_witness :
    getPlaygroundQuestion (fun _ => 0) "Arithmetic" 1 16
      unmatchedAnswerRawQuestion = .error () :=
  (shuffle_unmatched_answer_yields_error (fun _ => 0)
    unmatchedAnswerRawQuestion
    [.str "three", .str "four", .str "five", .str "six"] rfl
    (by decide)).2 "Arithmetic" 1 16

/-- An HTTP response as the request primitive sees it: status code plus parsed
JSON body (`response.json()` returns `body`). -/
structure HttpResponse where
  status : Nat
  body : JsVal
deriving DecidableEq, Repr

/-- Property `response.ok` of the Fetch API: status in the 2xx range. -/
def responseOk (r : HttpResponse) : Bool :=
  decide (200 ≤ r.status) && decide (r.status ≤ 299)

/-- JS `Math.ceil` rendered for the alert text (`Math.ceil(undefined)` is NaN,
which prints as `NaN`). -/
def jsCeilString (v : JsVal) : String :=
  match v with
  | .num q => toString ⌈q⌉
  | _ => "NaN"

/-- The rate-limit alert text of source line 55. -/
def rateLimitAlert (body : JsVal) : String :=
  "Too many requests. Please try again in "
    ++ jsCeilString (JsVal.getField body "retryAfter") ++ " seconds"

/-- Function `makeApiRequest` (source lines 36–64) once the response arrives:
the `!response.ok` check comes first and throws `RequestFailed(status)` (the
catch rethrows the generic error), and only afterwards would the
`status === 429` check issue the rate-limit alert.  The result pairs the
outcome with the list of alerts issued. -/
def makeApiRequest (r : HttpResponse) : Except Nat JsVal × List String :=
  if !responseOk r then (.error r.status, [])
  else if r.status == 429 then (.ok r.body, [rateLimitAlert r.body])
  else (.ok r.body, [])

/-- C5: a 429 response is not 2xx, so the not-ok check fires first: the call
fails with the request-failed error carrying 429 and the rate-limit
notification is never issued. -/
theorem makeApiRequest_429_fails_without_alert (r : HttpResponse)
    (h : r.status = 429) :
    makeApiRequest r = (.error 429, []) := by
  have hok : responseOk r = false := by
    simp [responseOk, h]
  unfold makeApiRequest
  rw [hok, h]
  rfl

/-- Witness for C5 at a concrete 429 response. -/
theorem makeApiRequest_429_fails_without_alert_witness :
    makeApiRequest ⟨429, JsVal.objNil⟩ = (.error 429, []) :=
  makeApiRequest_429_fails_without_alert ⟨429, JsVal.objNil⟩ rfl

/-- The internal failures of `getExploreContent` after parsing (its catch
collapses both into the generic "Failed to generate explore content"
rethrow; the constructor records which internal throw fired). -/
inductive ExploreErr where
  | nullAccess
  | invalidShape
deriving DecidableEq, Repr

/-- The explore result shape. -/
structure ExploreResponse where
  content : String
  relatedTopics : List JsVal
  relatedQuestions : List JsVal
deriving DecidableEq, Repr

/-- JS string conversion as `Array.prototype.join` applies it: strings pass
through, null/undefined become empty, booleans and numbers print; compound
values get a stand-in tag (no claim evaluates one). -/
def jsJoinPiece : JsVal → String
  | .str s => s
  | .null | .undefV => ""
  | .num q => jsNumToString q
  | .boolV b => if b then "true" else "false"
  | _ => "object"

/-- Function `getExploreContent` (source lines 66–116) from the parsed body
onward: truthiness-check `domain`, `content` and the three paragraphs in
source order (a nullish body makes `parsedContent.domain` throw), join the
paragraphs with blank lines, and keep at most 5 related topics/questions. -/
def getExploreContent (parsedContent : JsVal) :
    Except ExploreErr ExploreResponse :=
  if parsedContent.isNullish then .error .nullAccess
  else if !(parsedContent.getField "domain").truthy then .error .invalidShape
  else if !(parsedContent.getField "content").truthy then .error .invalidShape
  else if !((parsedContent.getField "content").getField "paragraph1").truthy
    then .error .invalidShape
  else if !((parsedContent.getField "content").getField "paragraph2").truthy
    then .error .invalidShape
  else if !((parsedContent.getField "content").getField "paragraph3").truthy
    then .error .invalidShape
  else
    .ok { content :=
            jsJoinPiece ((parsedContent.getField "content").getField "paragraph1")
              ++ "\n\n"
              ++ jsJoinPiece ((parsedContent.getField "content").getField "paragraph2")
              ++ "\n\n"
              ++ jsJoinPiece ((parsedContent.getField "content").getField "paragraph3"),
          relatedTopics :=
            if (parsedContent.getField "relatedTopics").isArray
            then (parsedContent.getField "relatedTopics").elems.take 5 else [],
          relatedQuestions :=
            if (parsedContent.getField "relatedQuestions").isArray
            then (parsedContent.getField "relatedQuestions").elems.take 5
            else [] }

/-- Claim-side: field `k` is missing on `v` (absent or explicitly undefined;
non-objects carry no fields at all). -/
def fieldMissing (v : JsVal) (k : String) : Bool :=
  match v.lookupField k with
  | none => true
  | some .undefV => true
  | some _ => false

/-- Claim-side: the parsed body is missing one of `domain`,
`content.paragraph1`, `content.paragraph2`, `content.paragraph3`. -/
def exploreShapeMissing (p : JsVal) : Bool :=
  fieldMissing p "domain"
    || fieldMissing (JsVal.getField p "content") "paragraph1"
    || fieldMissing (JsVal.getField p "content") "paragraph2"
    || fieldMissing (JsVal.getField p "content") "paragraph3"

theorem getField_of_missing {v : JsVal} {k : String}
    (h : fieldMissing v k = true) : JsVal.getField v k = .undefV := by
  unfold fieldMissing at h
  unfold JsVal.getField
  rcases hl : v.lookupField k with _ | w
  · rfl
  · rw [hl] at h
    cases w <;> simp_all

/-- C4 counterexample: the parsed body `null` is missing every field, yet the
fetch fails with the TypeError of the `.domain` access, not with the
invalid-shape throw the claim names. -/
theorem getExploreContent_null_not_shape_error :
    exploreShapeMissing JsVal.null = true ∧
    getExploreContent JsVal.null = .error .nullAccess ∧
    getExploreContent JsVal.null ≠ .error .invalidShape := by
  refine ⟨rfl, rfl, ?_⟩
  intro h
  have h2 : (Except.error ExploreErr.nullAccess :
      Except ExploreErr ExploreResponse) = .error .invalidShape := h
  simpa using h2

/-- C4 (amended): for every non-nullish parsed body missing any of `domain`,
`content.paragraph1/2/3`, the fetch fails with the invalid-shape error (a null
body fails too, but through the null property access); and whenever the fetch
succeeds with the three paragraphs being strings A, B, C, the returned content
is A, B, C joined by blank lines. -/
theorem getExploreContent_shape_and_content (p : JsVal) :
    (p.isNullish = false → exploreShapeMissing p = true →
      getExploreContent p = .error .invalidShape) ∧
    (∀ (r : ExploreResponse) (a b c : String),
      getExploreContent p = .ok r →
      JsVal.getField (JsVal.getField p "content") "paragraph1" = .str a →
      JsVal.getField (JsVal.getField p "content") "paragraph2" = .str b →
      JsVal.getField (JsVal.getField p "content") "paragraph3" = .str c →
      r.content = a ++ "\n\n" ++ b ++ "\n\n" ++ c) := by
  constructor
  · intro hnn hmiss
    unfold getExploreContent
    split_ifs with h0 h1 h2 h3 h4 h5
    · exact absurd h0 (by simp [hnn])
    · rfl
    · rfl
    · rfl
    · rfl
    · rfl
    · exfalso
      simp only [exploreShapeMissing, Bool.or_eq_true] at hmiss
      rcases hmiss with ((hm | hm) | hm) | hm
      · exact h1 (by rw [getField_of_missing hm]; rfl)
      · exact h3 (by rw [getField_of_missing hm]; rfl)
      · exact h4 (by rw [getField_of_missing hm]; rfl)
      · exact h5 (by rw [getField_of_missing hm]; rfl)
  · intro r a b c hok ha hb hc
    unfold getExploreContent at hok
    split_ifs at hok
    any_goals cases hok
    all_goals simp [ha, hb, hc, jsJoinPiece]

/-- One raw batch item mapped into a question: the body of the `.map` callback
of source lines 186–200 (only evaluated on non-nullish items, where no field
access throws). -/
def processTestItemOk (topic examType : String) (index : Nat) (q : JsVal) :
    Question :=
  { text := JsVal.jsOr (q.getField "text") (.str "")
    options := if (q.getField "options").isArray then q.getField "options"
               else .arrNil
    correctAnswer :=
      match q.getField "correctAnswer" with
      | .num n => .num n
      | _ => .num 0
    explanation := JsVal.jsOr (q.getField "explanation") (.str "")
    difficulty := ((index / 5 + 1 : Nat) : ℚ)
    topic := topic
    subtopic := JsVal.jsOr (q.getField "subtopic")
      (.str (topic ++ " Concept " ++ toString (index + 1)))
    examType := some examType
    questionType := "conceptual"
    ageGroup := "16-18" }

/-- The `.map` over the raw `questions` array, with the JS TypeError on a
nullish item (`q.text` on null) made explicit. -/
def processTestItems (topic examType : String) :
    Nat → List JsVal → Except Unit (List Question)
  | _, [] => .ok []
  | i, q :: qs =>
    if q.isNullish then .error ()
    else
      match processTestItems topic examType (i + 1) qs with
      | .ok rest => .ok (processTestItemOk topic examType i q :: rest)
      | .error u => .error u

/-- Internal failures of `getTestQuestions` (its catch wraps each into "Failed
to generate test questions: <message>"): a TypeError while mapping, or the
`Only N valid questions generated` throw carrying the count. -/
inductive TestErr where
  | mapThrew
  | insufficient (n : Nat)
deriving DecidableEq, Repr

/-- Function `getTestQuestions` (source lines 164–213) from the `questions`
array of the parsed body onward: map each item with its defaults, keep the
ones passing validation, return the first 15 if at least 5 remain, otherwise
fail with the count. -/
def getTestQuestions (topic examType : String) (questions : List JsVal) :
    Except TestErr (List Question) :=
  match processTestItems topic examType 0 questions with
  | .error _ => .error .mapThrew
  | .ok processedQuestions =>
    let validQuestions := processedQuestions.filter validateQuestionFormat
    if 5 ≤ validQuestions.length then .ok (validQuestions.take 15)
    else .error (.insufficient validQuestions.length)

/-- The fully mapped batch (defined when no item is nullish). -/
def processedBatch (topic examType : String) (qs : List JsVal) :
    List Question :=
  mapWithIndex (processTestItemOk topic examType) qs

/-- The mapped items that pass format validation, in original order. -/
def validBatch (topic examType : String) (qs : List JsVal) : List Question :=
  (processedBatch topic examType qs).filter validateQuestionFormat

theorem processTestItems_ok (topic examType : String) :
    ∀ (s : Nat) (qs : List JsVal), (∀ q ∈ qs, q.isNullish = false) →
      processTestItems topic examType s qs =
        .ok (mapWithIndexFrom (processTestItemOk topic examType) s qs) := by
  intro s qs
  induction qs generalizing s with
  | nil => intro _; rfl
  | cons q rest ih =>
    intro h
    have hq : q.isNullish = false := h q (by simp)
    have hr := ih (s + 1) (fun x hx => h x (by simp [hx]))
    simp [processTestItems, hq, hr, mapWithIndexFrom]

/-- C3 counterexample: a `questions` array containing `null` makes the map
callback throw (`q.text` on null), so the call fails with the wrapped
TypeError and not with the insufficient-count error, although fewer than 5
(namely zero) mapped questions pass validation. -/
theorem getTestQuestions_null_item_not_insufficient :
    getTestQuestions "Arithmetic" "JEE" [JsVal.null] = .error .mapThrew ∧
    getTestQuestions "Arithmetic" "JEE" [JsVal.null]
      ≠ .error (.insufficient 0) := by
  refine ⟨rfl, ?_⟩
  intro h
  have h2 : (Except.error TestErr.mapThrew : Except TestErr (List Question))
      = .error (.insufficient 0) := h
  simp at h2

/-- C3 (amended): over a `questions` array with no nullish entries, the fetch
fails with the insufficient-count error exactly when fewer than 5 mapped
questions validate, returns the first (at most) 15 valid questions when at
least 5 do, and that returned prefix is a sublist of the mapped batch, i.e.
original relative order is preserved.  (A nullish entry instead fails the map
itself; see the counterexample.) -/
theorem getTestQuestions_spec (topic examType : String) (qs : List JsVal)
    (hq : ∀ q ∈ qs, q.isNullish = false) :
    ((validBatch topic examType qs).length < 5 →
      getTestQuestions topic examType qs
        = .error (.insufficient (validBatch topic examType qs).length)) ∧
    (5 ≤ (validBatch topic examType qs).length →
      getTestQuestions topic examType qs
        = .ok ((validBatch topic examType qs).take 15)) ∧
    List.Sublist ((validBatch topic examType qs).take 15)
      (processedBatch topic examType qs) ∧
    ((validBatch topic examType qs).take 15).length ≤ 15 := by
  have hp := processTestItems_ok topic examType 0 qs hq
  refine ⟨?_, ?_, ?_, ?_⟩
  · intro hlt
    unfold getTestQuestions
    rw [hp]
    dsimp only
    rw [if_neg (by
      simp only [validBatch, processedBatch, mapWithIndex] at hlt
      omega)]
    simp only [validBatch, processedBatch, mapWithIndex]
  · intro hge
    unfold getTestQuestions
    rw [hp]
    dsimp only
    rw [if_pos (by
      simp only [validBatch, processedBatch, mapWithIndex] at hge
      omega)]
    simp only [validBatch, processedBatch, mapWithIndex]
  · exact ((validBatch topic examType qs).take_sublist 15).trans
      ((processedBatch topic examType qs).filter_sublist)
  · exact List.length_take_le 15 _

/-- A fully valid raw batch item. -/
def goodRawItem : JsVal :=
  JsVal.ofFields [("text", .str "What is two plus two?"),
    ("options", .ofList [.str "three", .str "four", .str "five", .str "six"]),
    ("correctAnswer", .num 1),
    ("explanation", JsVal.ofFields
      [("correct", .str "Two plus two is four."),
       ("key_point", .str "Basic addition.")])]

/-- Witness for C3 at a concrete batch of five valid items. -/
theorem getTestQuestions_spec_witness :
    getTestQuestions "Arithmetic" "JEE" (List.replicate 5 goodRawItem)
      = .ok ((validBatch "Arithmetic" "JEE"
          (List.replicate 5 goodRawItem)).take 15) :=
  (getTestQuestions_spec "Arithmetic" "JEE" (List.replicate 5 goodRawItem)
    (by decide)).2.1 (by decide)

theorem specExplPartOk_elim {v : JsVal} (h : specExplPartOk v = true) :
    ∃ c, v = .str c ∧ jsTrim c ≠ "" := by
  cases v
  case str s =>
    refine ⟨s, rfl, ?_⟩
    simp only [specExplPartOk, Bool.and_eq_true] at h
    simpa using h.1
  all_goals simp [specExplPartOk] at h

/-- C8 (amended): a raw batch item whose `explanation` is absent maps to the
empty-string explanation, and one whose `explanation` is a string keeps that
string (`q.explanation || ''` only substitutes `''` for a falsy value, so a
non-empty string is NOT replaced by the empty string); in both cases the
mapped question fails validation and is dropped; consequently every question
`getTestQuestions` returns has an object explanation whose `correct` and
`key_point` fields are strings that are non-empty after trimming. -/
theorem getTestQuestions_explanation_object :
    (∀ (topic examType : String) (i : Nat) (q : JsVal) (s : String),
      JsVal.getField q "explanation" = .str s →
      (processTestItemOk topic examType i q).explanation
          = (if s = "" then .str "" else .str s) ∧
      validateQuestionFormat (processTestItemOk topic examType i q) = false) ∧
    (∀ (topic examType : String) (i : Nat) (q : JsVal),
      JsVal.getField q "explanation" = .undefV →
      (processTestItemOk topic examType i q).explanation = .str "" ∧
      validateQuestionFormat (processTestItemOk topic examType i q) = false) ∧
    (∀ (topic examType : String) (qs : List JsVal) (res : List Question),
      getTestQuestions topic examType qs = .ok res →
      ∀ p ∈ res, ∃ c k, p.explanation.isObject = true ∧
        JsVal.getField p.explanation "correct" = .str c ∧ jsTrim c ≠ "" ∧
        JsVal.getField p.explanation "key_point" = .str k ∧ jsTrim k ≠ "") := by
  have hstr : ∀ (topic examType : String) (i : Nat) (q : JsVal) (s : String),
      JsVal.getField q "explanation" = .str s →
      (processTestItemOk topic examType i q).explanation
        = (if s = "" then .str "" else .str s) := by
    intro topic examType i q s hf
    simp only [processTestItemOk, hf, JsVal.jsOr, JsVal.truthy]
    by_cases hs : s = ""
    · simp [hs]
    · simp [hs]
  have hval : ∀ (topic examType : String) (i : Nat) (q : JsVal) (s : String),
      (processTestItemOk topic examType i q).explanation = .str s →
      validateQuestionFormat (processTestItemOk topic examType i q) = false := by
    intro topic examType i q s hexp
    rw [validateQuestionFormat_eq_specFormat]
    simp [specQuestionFormat, specExplanationOk, hexp, JsVal.isObject]
  refine ⟨?_, ?_, ?_⟩
  · intro topic examType i q s hf
    refine ⟨hstr topic examType i q s hf, ?_⟩
    by_cases hs : s = ""
    · exact hval topic examType i q "" (by rw [hstr topic examType i q s hf]; simp [hs])
    · exact hval topic examType i q s (by rw [hstr topic examType i q s hf]; simp [hs])
  · intro topic examType i q hf
    have hexp : (processTestItemOk topic examType i q).explanation = .str "" := by
      simp [processTestItemOk, hf, JsVal.jsOr, JsVal.truthy]
    exact ⟨hexp, hval topic examType i q "" hexp⟩
  · intro topic examType qs res hok p hp
    unfold getTestQuestions at hok
    cases hpt : processTestItems topic examType 0 qs with
    | error e => rw [hpt] at hok; cases hok
    | ok processed =>
      rw [hpt] at hok
      dsimp only at hok
      split_ifs at hok with h5
      · injection hok with hres
        subst hres
        have hpv : p ∈ processed.filter validateQuestionFormat :=
          List.take_subset 15 _ hp
        have hvp : validateQuestionFormat p = true :=
          (List.mem_filter.mp hpv).2
        rw [validateQuestionFormat_eq_specFormat] at hvp
        simp only [specQuestionFormat, Bool.and_eq_true] at hvp
        obtain ⟨⟨⟨_, _⟩, _⟩, hexp⟩ := hvp
        simp only [specExplanationOk, Bool.and_eq_true] at hexp
        obtain ⟨⟨hobj, hcor⟩, hkey⟩ := hexp
        obtain ⟨c, hc, hc2⟩ := specExplPartOk_elim hcor
        obtain ⟨k2, hk, hk2⟩ := specExplPartOk_elim hkey
        exact ⟨c, k2, hobj, hc, hc2, hk, hk2⟩

/-- A raw batch item carrying a non-empty string explanation. -/
def stringExplanationItem : JsVal :=
  JsVal.ofFields [("text", .str "What is two plus two?"),
    ("options", .ofList [.str "three", .str "four", .str "five", .str "six"]),
    ("correctAnswer", .num 1), ("explanation", .str "hello")]

/-- C8 counterexample: with the non-empty string explanation `"hello"`,
`q.explanation || ''` keeps `"hello"`: the claim's "defaulting to the empty
string" is wrong for truthy strings (the item is still dropped, as the amended
claim records). -/
theorem processTestItem_keeps_string_explanation :
    (processTestItemOk "Arithmetic" "JEE" 0 stringExplanationItem).explanation
      = .str "hello" ∧ JsVal.str "hello" ≠ .str "" := by
  refine ⟨rfl, ?_⟩
  decide

/-- Witness for C8 at the concrete string-explanation item. -/
theorem getTestQuestions_explanation_object_witness :
    validateQuestionFormat
      (processTestItemOk "Arithmetic" "JEE" 0 stringExplanationItem) = false :=
  (getTestQuestions_explanation_object.1 "Arithmetic" "JEE" 0
    stringExplanationItem "hello" rfl).2

/-- The payload of the single `onChunk` invocation: prose text plus optional
topic and question triples (`{topic,type,reason}` / `{question,type,context}`,
each component a raw JS value). -/
structure ChunkPayload where
  text : String
  topics : Option (List (JsVal × JsVal × JsVal))
  questions : Option (List (JsVal × JsVal × JsVal))
deriving DecidableEq, Repr

/-- JS `.map` over parsed entries, with the TypeError on nullish entries made
explicit. -/
def mapEntries (f : JsVal → JsVal × JsVal × JsVal) :
    List JsVal → Except Unit (List (JsVal × JsVal × JsVal))
  | [] => .ok []
  | e :: es =>
    if e.isNullish then .error ()
    else
      match mapEntries f es with
      | .ok rest => .ok (f e :: rest)
      | .error u => .error u

/-- Mapping `{name,type,detail}` to `{topic,type,reason}` (source lines
260–264). -/
def topicEntry (e : JsVal) : JsVal × JsVal × JsVal :=
  (e.getField "name", e.getField "type", e.getField "detail")

/-- Mapping `{text,type,detail}` to `{question,type,context}` (source lines
268–272). -/
def questionEntry (e : JsVal) : JsVal × JsVal × JsVal :=
  (e.getField "text", e.getField "type", e.getField "detail")

/-- Splitting on the literal separator `---` (source line 249), left to right
and non-overlapping, like `String.prototype.split`. -/
def splitDashesAux : List Char → List Char → List String
  | [], acc => [⟨acc.reverse⟩]
  | '-' :: '-' :: '-' :: rest, acc => ⟨acc.reverse⟩ :: splitDashesAux rest []
  | ch :: rest, acc => splitDashesAux rest (ch :: acc)

/-- JS `content.split('---')`. -/
def splitDashes (s : String) : List String :=
  splitDashesAux s.data []

/-- The trailing-JSON block of the stream handler (source lines 255–277):
`JSON.parse` is the supplied oracle (`none` = parse error); a throw midway
keeps whatever was assigned before it, and the inner catch swallows the
error. -/
def streamExtras (parseJson : String → Option JsVal) (jsonStr : String) :
    List (JsVal × JsVal × JsVal) × List (JsVal × JsVal × JsVal) :=
  match parseJson jsonStr with
  | none => ([], [])
  | some parsed =>
    if parsed.isNullish then ([], [])
    else
      match (if (parsed.getField "topics").truthy
               && (parsed.getField "topics").isArray
             then mapEntries topicEntry (parsed.getField "topics").elems
             else .ok []) with
      | .error _ => ([], [])
      | .ok ts =>
        match (if (parsed.getField "questions").truthy
                 && (parsed.getField "questions").isArray
               then mapEntries questionEntry (parsed.getField "questions").elems
               else .ok []) with
        | .error _ => (ts, [])
        | .ok qs => (ts, qs)

/-- Function `streamExploreContent` (source lines 215–290) from the parsed
response body onward, with the host `JSON.parse` as an oracle.  `.ok none`:
the call resolves without ever invoking `onChunk`; `.ok (some payload)`:
`onChunk` is invoked exactly once with `payload`; `.error ()`: the catch
block's generic "Failed to stream content" rethrow. -/
def streamExploreContent (parseJson : String → Option JsVal) (data : JsVal) :
    Except Unit (Option ChunkPayload) :=
  if data.isNullish then .error ()
  else
    if (data.getField "candidates").truthy
        && (JsVal.optField (JsVal.optField ((data.getField "candidates").index 0)
              "content") "parts").truthy then
      if ((data.getField "candidates").index 0).isNullish then .error ()
      else
        if (JsVal.getField ((data.getField "candidates").index 0)
              "content").isNullish then .error ()
        else
          if (JsVal.getField (JsVal.getField
                ((data.getField "candidates").index 0) "content")
                "parts").isNullish then .error ()
          else
            if ((JsVal.getField (JsVal.getField
                  ((data.getField "candidates").index 0) "content")
                  "parts").index 0).isNullish then .error ()
            else
              match JsVal.getField ((JsVal.getField (JsVal.getField
                  ((data.getField "candidates").index 0) "content")
                  "parts").index 0) "text" with
              | .str content =>
                let pieces := (splitDashes content).map jsTrim
                let extras :=
                  match pieces.get? 1 with
                  | none => ([], [])
                  | some js =>
                    if js = "" then ([], []) else streamExtras parseJson js
                let payload : ChunkPayload :=
                  { text := pieces.getD 0 ""
                    topics :=
                      if 0 < extras.1.length then some extras.1 else none
                    questions :=
                      if 0 < extras.2.length then some extras.2 else none }
                .ok (some payload)
              | _ => .error ()
    else .ok none

/-- Claim-side: the body has the expected `candidates[0].content.parts` shape,
i.e. the guard of source line 245 evaluates truthy. -/
def hasCandidatesShape (data : JsVal) : Bool :=
  !data.isNullish && (data.getField "candidates").truthy &&
    (JsVal.optField (JsVal.optField ((data.getField "candidates").index 0)
      "content") "parts").truthy

/-- C7 counterexample: the JSON body `null` lacks the candidates shape, yet
the call does not resolve silently - `data.candidates` throws and the catch
rethrows the generic stream error. -/
theorem streamExploreContent_null_raises :
    hasCandidatesShape JsVal.null = false ∧
    streamExploreContent (fun _ => none) JsVal.null = .error () :=
  ⟨rfl, rfl⟩

/-- C7 (amended): for every parsed body that is not null/undefined and lacks
the `candidates[0].content.parts` shape, `onChunk` is never invoked and the
call resolves normally; a null body instead fails with the generic stream
error. -/
theorem streamExploreContent_silent_on_missing_shape
    (parseJson : String → Option JsVal) (data : JsVal)
    (hnn : data.isNullish = false)
    (hshape : hasCandidatesShape data = false) :
    streamExploreContent parseJson data = .ok none := by
  have hc : ((data.getField "candidates").truthy &&
      (JsVal.optField (JsVal.optField ((data.getField "candidates").index 0)
        "content") "parts").truthy) = false := by
    simpa [hasCandidatesShape, hnn] using hshape
  unfold streamExploreContent
  rw [hnn, hc]
  rfl

/-- Witness for C7 at a concrete shape-lacking (but non-null) body. -/
theorem streamExploreContent_silent_on_missing_shape_witness :
    streamExploreContent (fun _ => none)
      (JsVal.objCons "foo" (.str "bar") .objNil) = .ok none :=
  streamExploreContent_silent_on_missing_shape (fun _ => none)
    (JsVal.objCons "foo" (.str "bar") .objNil) rfl rfl

/-- Witness for C4 at a concrete non-null body missing every field. -/
theorem getExploreContent_shape_and_content_witness :
    getExploreContent JsVal.objNil = .error .invalidShape :=
  (getExploreContent_shape_and_content JsVal.objNil).1 rfl rfl
